import Mathlib

/-!
Verification of the otelslog correlation handler (Go package `otelslog`)
against its natural-language specification.

The development shallowly embeds the current revision of `otelslog.go`:
the `Handler` decorator (span discovery, level-gated span starting,
attribute conversion with group prefixing, forking) and the `SpanContext`
span-handle lifecycle.  Go's mutable `*SpanContext` pointers are embedded
as indices into an explicit `World` store that is threaded through every
operation; Go contexts (`context.Context`) are embedded as the inductive
`GoCtx`; the OpenTelemetry tracer/span collaborator is embedded as a
store of `Span` records created by `tracerStart`.  `slog.Level` is an
`Int` (DEBUG = -4, INFO = 0, WARN = 4, ERROR = 8).  Where a claim is
specifically about Go slice aliasing, a separate model with explicit
backing arrays (`GoSliceModel`) is used; elsewhere slices are values.
-/

set_option linter.unusedVariables false

namespace Otelslog

/-- Wall-clock timestamp, as the fields Go's RFC 3339 formatting reads:
calendar date, time of day, and the zone offset east of UTC in minutes. -/
structure GoTime where
  year : Nat
  month : Nat
  day : Nat
  hour : Nat
  minute : Nat
  second : Nat
  offsetMinutes : Int
  deriving DecidableEq, Repr, Inhabited

/-- Two-digit zero padding, as Go's stdTime formatting uses for
month, day, hour, minute, second and zone fields. -/
def pad2 (n : Nat) : String := if n < 10 then "0" ++ toString n else toString n

/-- Four-digit zero padding for the year field. -/
def pad4 (n : Nat) : String :=
  if n < 10 then "000" ++ toString n
  else if n < 100 then "00" ++ toString n
  else if n < 1000 then "0" ++ toString n
  else toString n

/-- The `Z07:00` layout element: `Z` for UTC, otherwise a signed
`hh:mm` zone offset. -/
def tzString (offsetMinutes : Int) : String :=
  if offsetMinutes = 0 then "Z"
  else if 0 < offsetMinutes then
    "+" ++ pad2 (offsetMinutes.toNat / 60) ++ ":" ++ pad2 (offsetMinutes.toNat % 60)
  else
    "-" ++ pad2 ((-offsetMinutes).toNat / 60) ++ ":" ++ pad2 ((-offsetMinutes).toNat % 60)

/-- Go `t.Format(time.RFC3339)`: layout `2006-01-02T15:04:05Z07:00`
(whole seconds, `Z` or signed `hh:mm` offset). -/
def formatRFC3339 (t : GoTime) : String :=
  pad4 t.year ++ "-" ++ pad2 t.month ++ "-" ++ pad2 t.day ++ "T" ++
    pad2 t.hour ++ ":" ++ pad2 t.minute ++ ":" ++ pad2 t.second ++ tzString t.offsetMinutes

/-- Go `fmt` `%+d`: always-signed decimal. -/
def goPlusInt (i : Int) : String := if 0 ≤ i then "+" ++ toString i else toString i

/-- The helper `str` closure inside Go `slog.Level.String`. -/
def levelStr (base : String) (val : Int) : String :=
  if val = 0 then base else base ++ goPlusInt val

/-- Go `slog.Level.String()`: the nearest-below named level plus a
signed offset (e.g. level 0 is `INFO`, level 2 is `INFO+2`). -/
def levelString (l : Int) : String :=
  if l < 0 then levelStr "DEBUG" (l + 4)
  else if l < 4 then levelStr "INFO" l
  else if l < 8 then levelStr "WARN" (l - 4)
  else levelStr "ERROR" (l - 8)

/-- Go `5 * time.Second` etc.: a `time.Duration` is an integer count of
nanoseconds, so a duration of `s` seconds is the integer `s * 10^9`. -/
def durationOfSeconds (s : Int) : Int := s * 1000000000

/-- The dynamic value held by a `slog.KindAny` attribute, by the cases
`convertAnyValue` distinguishes.  `spanHandle` is a `*SpanContext`
pointer (an index into the `World` handle store); `other` is any other
concrete value, carried together with its `%+v` rendering. -/
inductive AnyValue where
  | strSlice (xs : List String)
  | intSlice (xs : List Int)
  | int64Slice (xs : List Int)
  | float64Slice (xs : List Nat)
  | boolSlice (xs : List Bool)
  | spanHandle (hid : Nat)
  | other (goRepr : String)
  deriving DecidableEq, Repr

/-- A `slog.Value`, by kind.  Float payloads are carried as their raw
64 bits (no claim examines float arithmetic); `uint64` is its own kind
because Go's converter has no case for it and falls through to the
default branch. -/
inductive SlogValue where
  | bool (b : Bool)
  | int64 (i : Int)
  | uint64 (n : Nat)
  | float64 (bits : Nat)
  | str (s : String)
  | duration (nanos : Int)
  | time (t : GoTime)
  | group (children : List (String × SlogValue))
  | anyVal (v : AnyValue)
  deriving Repr

/-- A `slog.Attr`: a key paired with a value. -/
abbrev SlogAttr := String × SlogValue

/-- An OpenTelemetry `attribute.Value`, by type.  `invalid` is the
zero `attribute.KeyValue`'s value type. -/
inductive AttrValue where
  | invalid
  | bool (b : Bool)
  | int64 (i : Int)
  | float64 (bits : Nat)
  | str (s : String)
  | boolSlice (xs : List Bool)
  | intSlice (xs : List Int)
  | int64Slice (xs : List Int)
  | float64Slice (xs : List Nat)
  | strSlice (xs : List String)
  deriving DecidableEq, Repr

/-- An OpenTelemetry `attribute.KeyValue`. -/
structure KeyValue where
  key : String
  value : AttrValue
  deriving DecidableEq, Repr

/-- The zero `attribute.KeyValue{}` that `collectEventAttributes`
filters out. -/
def kvZero : KeyValue := ⟨"", AttrValue.invalid⟩

/-- Go `%+v` applied to a `*SpanContext` that reaches the converter's
default string fallback; modelled opaquely as a function of the
pointer's identity. -/
def spanHandleFmt (hid : Nat) : String := "&\x7bSpanContext " ++ toString hid ++ "\x7d"

/-- `convertAnyValue(key, value)`: typed slices of primitives map to the
matching OpenTelemetry slice attribute; everything else falls back to a
string produced by `fmt.Sprintf("%+v", v)`. -/
def convertAnyValue (key : String) (v : AnyValue) : KeyValue :=
  match v with
  | .strSlice xs => ⟨key, .strSlice xs⟩
  | .intSlice xs => ⟨key, .intSlice xs⟩
  | .int64Slice xs => ⟨key, .int64Slice xs⟩
  | .float64Slice xs => ⟨key, .float64Slice xs⟩
  | .boolSlice xs => ⟨key, .boolSlice xs⟩
  | .spanHandle hid => ⟨key, .str (spanHandleFmt hid)⟩
  | .other goRepr => ⟨key, .str goRepr⟩

/-- The key computation opening `convertAttrs`: the attribute key
prefixed with the dot-joined group keys when any were passed. -/
def goKey (k : String) (groupKeys : List String) : String :=
  if groupKeys.length > 0 then String.intercalate "." groupKeys ++ "." ++ k else k

/-- `convertAttrs(attr, handler, groupKeys...)`: computes the prefixed
key via `goKey`, then converts by kind.  Group values recurse over
their children with the single extended prefix `[key]`; durations
become their nanosecond count as an integer; times format per RFC 3339;
`uint64` hits the default branch and becomes its decimal string (Go
`fmt.Sprintf("%+v")` of a `uint64`).  The Go callback parameter is
embedded by returning the produced pairs in call order. -/
def convertAttrs : SlogAttr → List String → List KeyValue
  | (k, .bool b), groupKeys => [⟨goKey k groupKeys, .bool b⟩]
  | (k, .duration nanos), groupKeys => [⟨goKey k groupKeys, .int64 nanos⟩]
  | (k, .float64 bits), groupKeys => [⟨goKey k groupKeys, .float64 bits⟩]
  | (k, .int64 i), groupKeys => [⟨goKey k groupKeys, .int64 i⟩]
  | (k, .str s), groupKeys => [⟨goKey k groupKeys, .str s⟩]
  | (k, .time t), groupKeys => [⟨goKey k groupKeys, .str (formatRFC3339 t)⟩]
  | (k, .group children), groupKeys =>
      (children.attach.map (fun c => convertAttrs c.1 [goKey k groupKeys])).flatten
  | (k, .anyVal v), groupKeys => [convertAnyValue (goKey k groupKeys) v]
  | (k, .uint64 n), groupKeys => [⟨goKey k groupKeys, .str (toString n)⟩]
termination_by attr _ => sizeOf attr
decreasing_by
  have hmem := List.sizeOf_lt_of_mem c.2
  simp only [Prod.mk.sizeOf_spec, SlogValue.group.sizeOf_spec]
  omega

/-- A Go `context.Context` as this package can observe it: the
background context, a context returned by `Tracer.Start` (wrapping its
parent and carrying the new span), or a `*SpanContext` handle used as a
context (the handle is an index into the `World` store). -/
inductive GoCtx where
  | background
  | spanCtx (parent : GoCtx) (spanId : Nat)
  | handle (hid : Nat)
  deriving DecidableEq, Repr, Inhabited

/-- The OpenTelemetry span collaborator, as far as this package drives
it: identity of the tracer and span name it was started under, the
context passed to `Tracer.Start`, whether it is still recording, and
how many effective `End` calls it has received. -/
structure Span where
  tracerName : String
  spanName : String
  startCtx : GoCtx
  recording : Bool
  endCount : Nat
  deriving DecidableEq, Repr

instance : Inhabited Span :=
  ⟨{ tracerName := "", spanName := "", startCtx := GoCtx.background,
     recording := false, endCount := 0 }⟩

/-- The `SpanContext` handle struct: embedded `trace.Span` and
`context.Context` (both nil-able, hence `Option`), the tracer and span
names, and the `must` flag.  The zero value (all fields empty) is the
`Inhabited` default. -/
structure SpanContext where
  span : Option Nat := none
  ctx : Option GoCtx := none
  traceName : String := ""
  spanName : String := ""
  must : Bool := false
  deriving DecidableEq, Repr, Inhabited

/-- `NewSpanContext(spanName, traceNameOpt...)`: pure construction,
tracer name defaulting to the empty string, no bound context, not
mandatory, never started. -/
def NewSpanContext (spanName : String) (traceNameOpt : Option String) : SpanContext :=
  { traceName := traceNameOpt.getD "", spanName := spanName }

/-- `NewMustSpanContext`: as `NewSpanContext` but with the `must` flag set. -/
def NewMustSpanContext (spanName : String) (traceNameOpt : Option String) : SpanContext :=
  { traceName := traceNameOpt.getD "", spanName := spanName, must := true }

/-- `NewSpanContextWithContext`: as `NewSpanContext` but bound to the
given ambient context. -/
def NewSpanContextWithContext (ctx : GoCtx) (spanName : String)
    (traceNameOpt : Option String) : SpanContext :=
  { ctx := some ctx, traceName := traceNameOpt.getD "", spanName := spanName }

/-- `NewMustSpanContextWithContext`: bound context and `must` flag both set. -/
def NewMustSpanContextWithContext (ctx : GoCtx) (spanName : String)
    (traceNameOpt : Option String) : SpanContext :=
  { ctx := some ctx, traceName := traceNameOpt.getD "", spanName := spanName,
    must := true }

/-- The mutable heap this package touches: the `*SpanContext` handles
(indexed by pointer identity) and the spans the tracer has created
(indexed by creation order). -/
structure World where
  handles : List SpanContext
  spans : List Span
  deriving DecidableEq, Repr

/-- Dereference a handle pointer. -/
def World.getHandle (w : World) (hid : Nat) : SpanContext := w.handles.getD hid default

/-- Write through a handle pointer. -/
def World.setHandle (w : World) (hid : Nat) (s : SpanContext) : World :=
  { w with handles := w.handles.set hid s }

/-- Whether a handle has been started (its embedded `trace.Span` is
non-nil). -/
def World.started (w : World) (hid : Nat) : Bool := (w.getHandle hid).span.isSome

/-- `otel.Tracer(tracerName).Start(ctx, spanName)` (collaborator): makes
a fresh recording span and returns the child context carrying it, the
new span's identity, and the grown span store. -/
def tracerStart (w : World) (tracerName : String) (ctx : GoCtx) (spanName : String) :
    GoCtx × Nat × World :=
  let sid := w.spans.length
  let sp : Span := { tracerName := tracerName, spanName := spanName, startCtx := ctx,
                     recording := true, endCount := 0 }
  (GoCtx.spanCtx ctx sid, sid, { w with spans := w.spans ++ [sp] })

/-- `span.End()` on the underlying OpenTelemetry span (collaborator,
per the otel-go SDK): a no-op once the span has already ended. -/
def Span.endOnce (sp : Span) : Span :=
  if sp.recording then { sp with recording := false, endCount := sp.endCount + 1 } else sp

/-- End the span with the given identity in the span store. -/
def World.endSpan (w : World) (sid : Nat) : World :=
  { w with spans := w.spans.set sid (w.spans.getD sid default).endOnce }

/-- `(*SpanContext).End()`: ends the embedded span if it is non-nil;
otherwise does nothing. -/
def SpanContextEnd (w : World) (hid : Nat) : World :=
  match (w.getHandle hid).span with
  | some sid => w.endSpan sid
  | none => w

/-- `(*SpanContext).Done()`: calls `End`, then returns the embedded
context's done channel — which dereferences the embedded
`context.Context` interface and panics when it is nil.  The result
carries the context whose channel is returned; the panic is the
`error` case. -/
def SpanContextDone (w : World) (hid : Nat) : Except String (World × GoCtx) :=
  let w1 := SpanContextEnd w hid
  match (w1.getHandle hid).ctx with
  | some c => Except.ok (w1, c)
  | none => Except.error "runtime error: invalid memory address or nil pointer dereference"

/-- The wrapped `slog.Handler` sink (collaborator): reports whether it
is enabled for a level, accumulates the group names it was asked to
enter, and records the records handed to it. -/
structure Sink where
  enabled : Int → Bool
  groups : List String
  handled : List Int

/-- A `slog.Record`: time, level, message, caller pc, and attributes in
order. -/
structure Record where
  time : GoTime
  level : Int
  message : String
  pc : Nat
  attrs : List SlogAttr

/-- `Next.Handle(ctx, record)` on the sink (collaborator): the record's
level is appended to the sink's log of handled records. -/
def Sink.handleRecord (s : Sink) (r : Record) : Sink :=
  { s with handled := s.handled ++ [r.level] }

/-- `Next.WithGroup(name)` on the sink (collaborator): a fork of the
sink that has entered the named group. -/
def Sink.withGroupSink (s : Sink) (name : String) : Sink :=
  { s with groups := s.groups ++ [name] }

/-- The `Handler` decorator of the current revision: trace/span ID
keys, accumulated attributes and group keys, span-event key and toggle,
minimum trace level, and the wrapped sink (`Next`, nil-able). -/
structure Handler where
  traceIDKey : String
  spanIDKey : String
  attrs : List SlogAttr
  groupKeys : List String
  spanEventKey : String
  spanEvent : Bool
  traceLevel : Int
  Next : Option Sink

/-- `WithTraceIDKey` functional option. -/
def WithTraceIDKey (key : String) (h : Handler) : Handler := { h with traceIDKey := key }

/-- `WithSpanIDKey` functional option. -/
def WithSpanIDKey (key : String) (h : Handler) : Handler := { h with spanIDKey := key }

/-- `WithSpanEventKey` functional option. -/
def WithSpanEventKey (key : String) (h : Handler) : Handler := { h with spanEventKey := key }

/-- `WithNoSpanEvents` functional option. -/
def WithNoSpanEvents (h : Handler) : Handler := { h with spanEvent := false }

/-- `WithTraceLevel` functional option. -/
def WithTraceLevel (level : Int) (h : Handler) : Handler := { h with traceLevel := level }

/-- `NewHandler(handler, opts...)`: defaults `trace_id`, `span_id`,
`log`, span events on, then applies the options.  The current
revision's `NewHandler` does not set `traceLevel`, so it keeps Go's
zero value 0 (= `slog.LevelInfo`). -/
def NewHandler (next : Option Sink) (opts : List (Handler → Handler)) : Handler :=
  opts.foldl (fun h opt => opt h)
    { traceIDKey := "trace_id", spanIDKey := "span_id", attrs := [], groupKeys := [],
      spanEventKey := "log", spanEvent := true, traceLevel := 0, Next := next }

/-- `Handler.Enabled` (current revision): returns `true` for every
context and level. -/
def Handler.Enabled (h : Handler) (ctx : GoCtx) (level : Int) : Bool := true

/-- The older revision's `Handler`, as far as its `Enabled` needs: only
the wrapped sink (dereferenced unconditionally, so embedded non-nil). -/
structure HandlerV2 where
  Next : Sink

/-- The older revision's `Handler.Enabled`: delegates to the wrapped
sink. -/
def HandlerV2.Enabled (h : HandlerV2) (ctx : GoCtx) (level : Int) : Bool :=
  h.Next.enabled level

/-- `Handler.WithAttrs` (current revision): fork that replaces the
accumulated attributes and copies every other field, sharing `Next`. -/
def Handler.WithAttrs (h : Handler) (attrs : List SlogAttr) : Handler :=
  { attrs := attrs, groupKeys := h.groupKeys, traceIDKey := h.traceIDKey,
    spanIDKey := h.spanIDKey, spanEventKey := h.spanEventKey, spanEvent := h.spanEvent,
    traceLevel := h.traceLevel, Next := h.Next }

/-- `Handler.WithGroup` (current revision): fork that appends the group
name to `groupKeys` and wraps `h.Next.WithGroup(name)`.  Modelled at
value level here (`List` append); the Go-slice aliasing of this same
`append` is modelled separately in `GoSliceModel`.  A nil `Next` would
panic in Go; the `Option.map` covers the non-nil case the claims use. -/
def Handler.WithGroup (h : Handler) (name : String) : Handler :=
  { attrs := h.attrs, groupKeys := h.groupKeys ++ [name], traceIDKey := h.traceIDKey,
    spanIDKey := h.spanIDKey, spanEventKey := h.spanEventKey, spanEvent := h.spanEvent,
    traceLevel := h.traceLevel, Next := h.Next.map (fun s => s.withGroupSink name) }

/-- `Handler.collectAttributes`: the handler's accumulated attributes,
in order, followed by the record's own attributes, in order. -/
def collectAttributes (h : Handler) (record : Record) : List SlogAttr :=
  h.attrs ++ record.attrs

/-- The scanning loop of `Handler.getTraceSpan`, carrying the already
scanned prefix in reverse.  On the first attribute whose resolved value
is a `*SpanContext`, it writes the attribute key into the handle's
`traceName` (unconditionally), removes exactly that attribute
(`slices.Delete(attrs, i, i+1)`), and stops. -/
def getTraceSpanGo (w : World) (rest : List SlogAttr) (seen : List SlogAttr) :
    Option Nat × List SlogAttr × World :=
  match rest with
  | [] => (none, seen.reverse, w)
  | a :: rs =>
    match a.2 with
    | .anyVal (.spanHandle hid) =>
        let sp := w.getHandle hid
        (some hid, seen.reverse ++ rs, w.setHandle hid { sp with traceName := a.1 })
    | _ => getTraceSpanGo w rs (a :: seen)

/-- `Handler.getTraceSpan(attrs)`: first embedded handle by position
plus the remaining attributes; `(nil, attrs)` when none is found. -/
def getTraceSpan (w : World) (attrs : List SlogAttr) : Option Nat × List SlogAttr × World :=
  getTraceSpanGo w attrs []

/-- `Handler.traceStart(ctx, level, span)`: returns `ctx` unchanged for
a nil handle; starts the span (writing the started context and span
into the handle, and returning the handle itself as the new context)
exactly when `level >= h.traceLevel || span.must`; otherwise returns
`ctx` unchanged. -/
def traceStart (h : Handler) (ctx : GoCtx) (level : Int) (span : Option Nat) (w : World) :
    GoCtx × World :=
  match span with
  | none => (ctx, w)
  | some hid =>
    let sp := w.getHandle hid
    if h.traceLevel ≤ level ∨ sp.must = true then
      let (newCtx, sid, w1) := tracerStart w sp.traceName ctx sp.spanName
      (GoCtx.handle hid, w1.setHandle hid { sp with ctx := some newCtx, span := some sid })
    else (ctx, w)

/-- `Handler.handleTrace(ctx, record)`: scans the assembled attributes
for an embedded handle; if found, starts it (against its own bound
context when non-nil, else the ambient context) and rebuilds the record
with the handle stripped.  Otherwise, if the ambient context itself is
a `*SpanContext`, binds it to a background context when it has none and
starts it against its own bound context.  Otherwise passes everything
through. -/
def handleTrace (h : Handler) (ctx : GoCtx) (record : Record) (w : World) :
    GoCtx × Record × World :=
  match getTraceSpan w (collectAttributes h record) with
  | (some hid, attrs, w1) =>
    let sp := w1.getHandle hid
    let (ctx2, w2) :=
      match sp.ctx with
      | some bound => traceStart h bound record.level (some hid) w1
      | none => traceStart h ctx record.level (some hid) w1
    (ctx2, { record with attrs := attrs }, w2)
  | (none, _, w1) =>
    match ctx with
    | GoCtx.handle hid =>
      let sp0 := w1.getHandle hid
      let sp := if sp0.ctx = none then { sp0 with ctx := some GoCtx.background } else sp0
      let w2 := w1.setHandle hid sp
      let (ctx2, w3) := traceStart h (sp.ctx.getD GoCtx.background) record.level (some hid) w2
      (ctx2, record, w3)
    | _ => (ctx, record, w1)

/-- `Handler.nextHandle(ctx, record)`: forwards to the wrapped sink
only when it exists and its own `Enabled` accepts the record's level;
the result is the sink's state afterwards (`none` when absent). -/
def nextHandle (h : Handler) (ctx : GoCtx) (record : Record) : Option Sink :=
  match h.Next with
  | some s => if s.enabled record.level then some (s.handleRecord record) else some s
  | none => none

/-- `Handler.collectEventAttributes(record)`: every record attribute
converted through `convertAttrs` with the handler's accumulated group
keys as prefix (the produced pairs kept when non-zero), followed by the
three unprefixed fixed fields `msg`, `level` (the level's string name)
and `time` (RFC 3339). -/
def collectEventAttributes (h : Handler) (record : Record) : List KeyValue :=
  (record.attrs.flatMap (fun attr =>
      (convertAttrs attr h.groupKeys).filter (fun kv => kv ≠ kvZero)))
  ++ [⟨"msg", .str record.message⟩,
      ⟨"level", .str (levelString record.level)⟩,
      ⟨"time", .str (formatRFC3339 record.time)⟩]

namespace GoSliceModel

/-- A Go slice header: backing array identity, length, capacity. -/
structure GoSlice where
  arrId : Nat
  len : Nat
  cap : Nat
  deriving DecidableEq, Repr

/-- The heap of backing arrays (each stored at its full capacity). -/
structure Heap where
  arrays : List (List String)
  deriving DecidableEq, Repr

/-- Read a backing array. -/
def Heap.read (hp : Heap) (arrId : Nat) : List String := hp.arrays.getD arrId []

/-- The elements a slice header denotes. -/
def sliceView (hp : Heap) (s : GoSlice) : List String := (hp.read s.arrId).take s.len

/-- Go `growslice` capacity for appending one element in the doubling
regime (small slices): double the capacity, or 1 from empty. -/
def growCap (cap : Nat) : Nat := if cap = 0 then 1 else 2 * cap

/-- Go `append(s, x)` for one element: writes in place into the shared
backing array when spare capacity exists, otherwise copies into a
fresh, larger array. -/
def goAppend (hp : Heap) (s : GoSlice) (x : String) : Heap × GoSlice :=
  if s.len < s.cap then
    let contents := (hp.read s.arrId).set s.len x
    ({ arrays := hp.arrays.set s.arrId contents }, { s with len := s.len + 1 })
  else
    let newCap := growCap s.cap
    let contents := sliceView hp s ++ [x] ++ List.replicate (newCap - (s.len + 1)) ""
    ({ arrays := hp.arrays ++ [contents] },
     { arrId := hp.arrays.length, len := s.len + 1, cap := newCap })

/-- The slice-level content of `Handler.WithGroup`: the child's
`groupKeys` is `append(h.groupKeys, name)` on the parent's slice.  The
heap is threaded explicitly; the parent's header is not changed. -/
def withGroupKeys (hp : Heap) (parent : GoSlice) (name : String) : Heap × GoSlice :=
  goAppend hp parent name

/-- The empty (nil) slice. -/
def nilSlice : GoSlice := { arrId := 0, len := 0, cap := 0 }

end GoSliceModel

/-! Helper lemmas shared across claims. -/

/-- Ending an already-ended collaborator span changes nothing. -/
theorem Span.endOnce_endOnce (sp : Span) : sp.endOnce.endOnce = sp.endOnce := by
  unfold Span.endOnce
  cases hr : sp.recording <;> simp [hr]

/-- `endSpan` leaves the handle store untouched. -/
theorem World.getHandle_endSpan (w : World) (sid hid : Nat) :
    (w.endSpan sid).getHandle hid = w.getHandle hid := rfl

/-- `SpanContextEnd` leaves the handle store untouched. -/
theorem World.getHandle_spanContextEnd (w : World) (hid j : Nat) :
    (SpanContextEnd w hid).getHandle j = w.getHandle j := by
  unfold SpanContextEnd
  cases (w.getHandle hid).span <;> rfl

/-- Writing a handle and reading it back at the same, in-range index. -/
theorem World.getHandle_setHandle_self (w : World) (hid : Nat) (s : SpanContext)
    (hlen : hid < w.handles.length) :
    (w.setHandle hid s).getHandle hid = s := by
  simp [World.setHandle, World.getHandle, List.getD, List.getElem?_set_self, hlen]

/-- Writing a handle leaves every other index unchanged. -/
theorem World.getHandle_setHandle_ne (w : World) (hid j : Nat) (s : SpanContext)
    (hne : j ≠ hid) :
    (w.setHandle hid s).getHandle j = w.getHandle j := by
  simp [World.setHandle, World.getHandle, List.getD, List.getElem?_set_ne (by omega : hid ≠ j)]

/-- `tracerStart` only grows the span store. -/
theorem tracerStart_handles (w : World) (tn : String) (ctx : GoCtx) (sn : String) :
    (tracerStart w tn ctx sn).2.2.handles = w.handles := rfl

/-- The tail of `String.intercalate` distributes over a final appended
element. -/
theorem intercalate_go_append (acc : String) (l : List String) (k : String) :
    String.intercalate.go acc "." (l ++ [k]) = String.intercalate.go acc "." l ++ "." ++ k := by
  induction l generalizing acc with
  | nil => simp [String.intercalate.go]
  | cons b bs ih => simp [String.intercalate.go, ih]

/-- The converter's key computation in closed form: the group keys and
the attribute key, dot-joined — for empty group keys just the attribute
key (nesting depth 0). -/
theorem goKey_intercalate (k : String) (gs : List String) :
    goKey k gs = String.intercalate "." (gs ++ [k]) := by
  cases gs with
  | nil => simp [goKey, String.intercalate, String.intercalate.go]
  | cons g gs' => simp [goKey, String.intercalate, intercalate_go_append]

/-! Theorems for the claims. -/

/-- Claim C1: `traceStart` starts the handle exactly when the record
level is at or above the configured minimum trace level or the handle
is mandatory; otherwise the handle stays unstarted and the original
context (and world) are returned unchanged.  In particular a mandatory
handle starts at every level. -/
theorem traceStart_gates_on_level_or_must (h : Handler) (ctx : GoCtx) (level : Int)
    (hid : Nat) (w : World) (hlen : hid < w.handles.length)
    (hun : (w.getHandle hid).span = none) :
    (((traceStart h ctx level (some hid) w).2.getHandle hid).span.isSome = true ↔
      (h.traceLevel ≤ level ∨ (w.getHandle hid).must = true)) ∧
    (¬(h.traceLevel ≤ level ∨ (w.getHandle hid).must = true) →
      traceStart h ctx level (some hid) w = (ctx, w)) ∧
    ((w.getHandle hid).must = true →
      ((traceStart h ctx level (some hid) w).2.getHandle hid).span.isSome = true) := by
  by_cases hcond : h.traceLevel ≤ level ∨ (w.getHandle hid).must = true
  · have hstep :
        (traceStart h ctx level (some hid) w).2.getHandle hid =
          { w.getHandle hid with
              ctx := some (GoCtx.spanCtx ctx w.spans.length),
              span := some w.spans.length } := by
      simp only [traceStart, hcond, if_true, tracerStart]
      exact World.getHandle_setHandle_self _ hid _ hlen
    refine ⟨?_, fun hn => absurd hcond hn, fun _ => ?_⟩
    · rw [hstep]
      simp [hcond]
    · rw [hstep]
      rfl
  · have hstep : traceStart h ctx level (some hid) w = (ctx, w) := by
      simp [traceStart, hcond]
    refine ⟨?_, fun _ => hstep, fun hmust => absurd (Or.inr hmust) hcond⟩
    rw [hstep]
    simp [hun, hcond]

/-- Claim C1 witness: a non-mandatory handle at INFO with minimum WARN
stays unstarted and leaves the context and world alone; instantiated
from the general theorem. -/
theorem traceStart_gates_on_level_or_must_witness :
    (((traceStart (NewHandler none [WithTraceLevel 4]) GoCtx.background 0 (some 0)
        ⟨[NewSpanContext "op" none], []⟩).2.getHandle 0).span.isSome = true ↔
      ((NewHandler none [WithTraceLevel 4]).traceLevel ≤ 0 ∨
        ((⟨[NewSpanContext "op" none], []⟩ : World).getHandle 0).must = true)) ∧
    (¬((NewHandler none [WithTraceLevel 4]).traceLevel ≤ 0 ∨
        ((⟨[NewSpanContext "op" none], []⟩ : World).getHandle 0).must = true) →
      traceStart (NewHandler none [WithTraceLevel 4]) GoCtx.background 0 (some 0)
        ⟨[NewSpanContext "op" none], []⟩ =
        (GoCtx.background, ⟨[NewSpanContext "op" none], []⟩)) ∧
    (((⟨[NewSpanContext "op" none], []⟩ : World).getHandle 0).must = true →
      ((traceStart (NewHandler none [WithTraceLevel 4]) GoCtx.background 0 (some 0)
        ⟨[NewSpanContext "op" none], []⟩).2.getHandle 0).span.isSome = true) :=
  traceStart_gates_on_level_or_must (NewHandler none [WithTraceLevel 4]) GoCtx.background 0 0
    ⟨[NewSpanContext "op" none], []⟩ (by decide) rfl

/-- Claim C5 counterexample input: a handler inside groups `g1, g2`
with the default span-event key `log`. -/
def c5Handler : Handler :=
  { traceIDKey := "trace_id", spanIDKey := "span_id", attrs := [], groupKeys := ["g1", "g2"],
    spanEventKey := "log", spanEvent := true, traceLevel := 0, Next := none }

/-- Claim C5 counterexample input: 2023-01-01T00:00:00Z. -/
def c5Time : GoTime :=
  { year := 2023, month := 1, day := 1, hour := 0, minute := 0, second := 0, offsetMinutes := 0 }

/-- Claim C5 counterexample input: an INFO record with one attribute
`k = "v"`. -/
def c5Record : Record :=
  { time := c5Time, level := 0, message := "m", pc := 0, attrs := [("k", SlogValue.str "v")] }

/-- Claim C5 counterexample: under groups `g1, g2` with event key
`log`, the converted key is `g1.g2.k`, not the claimed `log.g1.g2.k` —
the configured span-event key is not part of the per-attribute
prefix. -/
theorem event_attr_key_lacks_event_key :
    collectEventAttributes c5Handler c5Record =
      [⟨"g1.g2.k", AttrValue.str "v"⟩, ⟨"msg", AttrValue.str "m"⟩,
       ⟨"level", AttrValue.str "INFO"⟩, ⟨"time", AttrValue.str "2023-01-01T00:00:00Z"⟩] ∧
    "g1.g2.k" ≠ "log.g1.g2.k" := by
  have hconv : convertAttrs ("k", SlogValue.str "v") ["g1", "g2"] =
      [⟨"g1.g2.k", AttrValue.str "v"⟩] := by
    simp only [convertAttrs, goKey]
    decide
  refine ⟨?_, by decide⟩
  simp only [collectEventAttributes, c5Handler, c5Record, c5Time, List.flatMap_cons,
    List.flatMap_nil, hconv]
  decide

/-- Claim C5 (amended): every remaining record attribute converts with
a prefix equal to the accumulated group path only (the configured
span-event key does not enter the prefix): key `k` under groups `gs`
yields the dot-join of `gs ++ [k]`, at any nesting depth ≥ 0; and the
three unprefixed fixed fields — message, the level's string name, and
the RFC 3339 time — are appended after the converted attributes. -/
theorem event_attrs_prefixed_by_group_path_only (tik sik sek : String) (se : Bool)
    (tl : Int) (nx : Option Sink) (ha : List SlogAttr) (gs : List String)
    (k v : String) (t : GoTime) (lvl : Int) (msg : String) (pc : Nat) :
    collectEventAttributes
        { traceIDKey := tik, spanIDKey := sik, attrs := ha, groupKeys := gs,
          spanEventKey := sek, spanEvent := se, traceLevel := tl, Next := nx }
        { time := t, level := lvl, message := msg, pc := pc,
          attrs := [(k, SlogValue.str v)] } =
      [⟨String.intercalate "." (gs ++ [k]), AttrValue.str v⟩,
       ⟨"msg", AttrValue.str msg⟩,
       ⟨"level", AttrValue.str (levelString lvl)⟩,
       ⟨"time", AttrValue.str (formatRFC3339 t)⟩] := by
  simp [collectEventAttributes, convertAttrs, goKey_intercalate, kvZero]

/-- Whether an attribute's resolved value is an embedded `*SpanContext`
(the type assertion `attr.Value.Resolve().Any().(*SpanContext)`). -/
def isHandleAttr : SlogAttr → Bool
  | (_, .anyVal (.spanHandle _)) => true
  | _ => false

/-- Scanning past one non-handle attribute just moves it to the seen
prefix. -/
theorem getTraceSpanGo_step (w : World) (ak : String) (av : SlogValue)
    (rs seen : List SlogAttr) (ha : isHandleAttr (ak, av) = false) :
    getTraceSpanGo w ((ak, av) :: rs) seen = getTraceSpanGo w rs ((ak, av) :: seen) := by
  cases av with
  | anyVal v =>
    cases v with
    | spanHandle hid => simp [isHandleAttr] at ha
    | strSlice xs => rfl
    | intSlice xs => rfl
    | int64Slice xs => rfl
    | float64Slice xs => rfl
    | boolSlice xs => rfl
    | other goRepr => rfl
  | bool b => rfl
  | int64 i => rfl
  | uint64 n => rfl
  | float64 bits => rfl
  | str s => rfl
  | duration nanos => rfl
  | time t => rfl
  | group children => rfl

/-- The scan on a list whose first handle sits after the clean prefix
`pre`: it stops at that handle, removes exactly it, and writes its key
into the handle's tracer name. -/
theorem getTraceSpanGo_found (w : World) (pre : List SlogAttr) (k : String) (hid : Nat)
    (post seen : List SlogAttr) (hpre : ∀ a ∈ pre, isHandleAttr a = false) :
    getTraceSpanGo w (pre ++ (k, SlogValue.anyVal (AnyValue.spanHandle hid)) :: post) seen =
      (some hid, seen.reverse ++ (pre ++ post),
        w.setHandle hid { w.getHandle hid with traceName := k }) := by
  induction pre generalizing seen with
  | nil => simp [getTraceSpanGo]
  | cons a rest ih =>
    obtain ⟨ak, av⟩ := a
    rw [List.cons_append, getTraceSpanGo_step w ak av _ seen (hpre (ak, av) (by simp))]
    rw [ih ((ak, av) :: seen) (fun b hb => hpre b (by simp [hb]))]
    simp

/-- The scan on a list with no embedded handle returns it unchanged and
touches no handle. -/
theorem getTraceSpanGo_none (w : World) (attrs seen : List SlogAttr)
    (h : ∀ a ∈ attrs, isHandleAttr a = false) :
    getTraceSpanGo w attrs seen = (none, seen.reverse ++ attrs, w) := by
  induction attrs generalizing seen with
  | nil => simp [getTraceSpanGo]
  | cons a rest ih =>
    obtain ⟨ak, av⟩ := a
    rw [getTraceSpanGo_step w ak av rest seen (h (ak, av) (by simp))]
    rw [ih ((ak, av) :: seen) (fun b hb => h b (by simp [hb]))]
    simp

/-- When the gate passes, `traceStart` starts the span: a new recording
span (started against the given context, under the handle's tracer and
span names) is appended to the span store, the started context and span
are written into the handle, and the handle itself is returned as the
new context. -/
theorem traceStart_starts (h : Handler) (ctx : GoCtx) (level : Int) (hid : Nat) (w : World)
    (hgate : h.traceLevel ≤ level ∨ (w.getHandle hid).must = true) :
    traceStart h ctx level (some hid) w =
      (GoCtx.handle hid,
       { handles := w.handles.set hid
           { w.getHandle hid with
               ctx := some (GoCtx.spanCtx ctx w.spans.length),
               span := some w.spans.length },
         spans := w.spans ++ [{ tracerName := (w.getHandle hid).traceName,
                                spanName := (w.getHandle hid).spanName,
                                startCtx := ctx,
                                recording := true,
                                endCount := 0 }] }) := by
  simp [traceStart, hgate, tracerStart, World.setHandle]

/-- Reading a handle out of an explicitly given store. -/
theorem World.getHandle_mk (hs : List SpanContext) (ss : List Span) (j : Nat) :
    World.getHandle ⟨hs, ss⟩ j = hs.getD j default := rfl

/-- Claim C4 counterexample input: a handle whose own tracer name is
the non-empty `svc`. -/
def c4World : World := ⟨[{ traceName := "svc", spanName := "op" }], []⟩

/-- Claim C4 counterexample: scanning an attribute list embedding that
handle under key `operation` overwrites the non-empty tracer name with
the attribute key — the code assigns unconditionally, not only when the
handle's own tracer name is empty. -/
theorem traceName_overwritten_even_when_nonempty :
    (c4World.getHandle 0).traceName = "svc" ∧
    "svc" ≠ "" ∧
    ((getTraceSpan c4World
        [("operation", SlogValue.anyVal (AnyValue.spanHandle 0))]).2.2.getHandle 0).traceName =
      "operation" ∧
    ("operation" : String) ≠ "svc" := by
  exact ⟨rfl, by decide, rfl, by decide⟩

/-- Claim C4 (amended): the scan returns the first embedded handle by
position; the returned list is the input with exactly that one matched
attribute removed, the order of the rest preserved (no panic, no wrong
range); the handle's tracer name is always set to the attribute's key
(overwriting any non-empty tracer name it had); and a list without a
handle comes back untouched. -/
theorem getTraceSpan_first_handle (w : World) (pre post : List SlogAttr) (k : String)
    (hid : Nat) (hpre : ∀ a ∈ pre, isHandleAttr a = false) :
    getTraceSpan w (pre ++ (k, SlogValue.anyVal (AnyValue.spanHandle hid)) :: post) =
      (some hid, pre ++ post,
        w.setHandle hid { w.getHandle hid with traceName := k }) ∧
    (∀ attrs, (∀ a ∈ attrs, isHandleAttr a = false) →
      getTraceSpan w attrs = (none, attrs, w)) := by
  constructor
  · rw [getTraceSpan, getTraceSpanGo_found w pre k hid post [] hpre]
    simp
  · intro attrs hnone
    rw [getTraceSpan, getTraceSpanGo_none w attrs [] hnone]
    simp

/-- Claim C4 witness: the amended statement at a concrete two-element
list, the handle sitting second. -/
theorem getTraceSpan_first_handle_witness :
    getTraceSpan ⟨[{ spanName := "op" }], []⟩
        ([("x", SlogValue.str "y")] ++ ("operation", SlogValue.anyVal (AnyValue.spanHandle 0)) :: []) =
      (some 0, [("x", SlogValue.str "y")] ++ [],
        (⟨[{ spanName := "op" }], []⟩ : World).setHandle 0
          { (⟨[{ spanName := "op" }], []⟩ : World).getHandle 0 with traceName := "operation" }) ∧
    (∀ attrs, (∀ a ∈ attrs, isHandleAttr a = false) →
      getTraceSpan (⟨[{ spanName := "op" }], []⟩ : World) attrs = (none, attrs, ⟨[{ spanName := "op" }], []⟩)) :=
  getTraceSpan_first_handle ⟨[{ spanName := "op" }], []⟩ [("x", SlogValue.str "y")] []
    "operation" 0 (by decide)

/-- Claim C3: span-discovery precedence.  First part: when the
assembled attributes embed a handle (the first one, `ehid`, sits after
the handle-free prefix `pre`) and the ambient context is itself a
distinct handle `ahid`, `handleTrace` starts the embedded handle, the
ambient handle's state is untouched, and the matched attribute is
stripped from the record.  Second part: when no embedded handle is
present and the ambient context is the handle `ahid`, `handleTrace`
starts that handle against its own bound context — defaulting to a
background context when none was bound — and leaves the record
unchanged. -/
theorem handleTrace_embedded_handle_precedence (h : Handler) (r : Record) (w : World)
    (ahid ehid : Nat) (pre post : List SlogAttr) (k : String) :
    (collectAttributes h r = pre ++ (k, SlogValue.anyVal (AnyValue.spanHandle ehid)) :: post →
     (∀ a ∈ pre, isHandleAttr a = false) →
     ahid ≠ ehid →
     ehid < w.handles.length →
     (h.traceLevel ≤ r.level ∨ (w.getHandle ehid).must = true) →
     ((handleTrace h (GoCtx.handle ahid) r w).2.2.started ehid = true ∧
      (handleTrace h (GoCtx.handle ahid) r w).2.2.getHandle ahid = w.getHandle ahid ∧
      (handleTrace h (GoCtx.handle ahid) r w).2.1 = { r with attrs := pre ++ post })) ∧
    ((∀ a ∈ collectAttributes h r, isHandleAttr a = false) →
     ahid < w.handles.length →
     (h.traceLevel ≤ r.level ∨ (w.getHandle ahid).must = true) →
     ((handleTrace h (GoCtx.handle ahid) r w).2.2.started ahid = true ∧
      ((handleTrace h (GoCtx.handle ahid) r w).2.2.spans.getD w.spans.length default).startCtx =
        ((w.getHandle ahid).ctx).getD GoCtx.background ∧
      (handleTrace h (GoCtx.handle ahid) r w).2.1 = r)) := by
  constructor
  · intro hsplit hpre hne hlen hgate
    have hscan : getTraceSpan w (collectAttributes h r) =
        (some ehid, pre ++ post,
          w.setHandle ehid { w.getHandle ehid with traceName := k }) := by
      rw [hsplit, getTraceSpan, getTraceSpanGo_found w pre k ehid post [] hpre]
      simp
    have hsp : (w.setHandle ehid { w.getHandle ehid with traceName := k }).getHandle ehid =
        { w.getHandle ehid with traceName := k } :=
      World.getHandle_setHandle_self w ehid _ hlen
    have hgate1 : h.traceLevel ≤ r.level ∨
        ((w.setHandle ehid { w.getHandle ehid with traceName := k }).getHandle ehid).must =
          true := by
      rw [hsp]
      exact hgate
    have hlen1 : ehid <
        (w.setHandle ehid { w.getHandle ehid with traceName := k }).handles.length := by
      simpa [World.setHandle] using hlen
    cases hctx : ((w.setHandle ehid
        { w.getHandle ehid with traceName := k }).getHandle ehid).ctx with
    | some bound =>
      have hout : handleTrace h (GoCtx.handle ahid) r w =
          ((traceStart h bound r.level (some ehid)
              (w.setHandle ehid { w.getHandle ehid with traceName := k })).1,
           { r with attrs := pre ++ post },
           (traceStart h bound r.level (some ehid)
              (w.setHandle ehid { w.getHandle ehid with traceName := k })).2) := by
        simp only [handleTrace, hscan, hctx]
      rw [hout, traceStart_starts h bound r.level ehid _ hgate1]
      refine ⟨?_, ?_, rfl⟩
      · simp [World.started, World.getHandle_mk, List.getD,
          List.getElem?_set_self, hlen1]
      · simp [World.getHandle_mk, World.setHandle, World.getHandle, List.getD,
          List.getElem?_set_ne (Ne.symm hne)]
    | none =>
      have hout : handleTrace h (GoCtx.handle ahid) r w =
          ((traceStart h (GoCtx.handle ahid) r.level (some ehid)
              (w.setHandle ehid { w.getHandle ehid with traceName := k })).1,
           { r with attrs := pre ++ post },
           (traceStart h (GoCtx.handle ahid) r.level (some ehid)
              (w.setHandle ehid { w.getHandle ehid with traceName := k })).2) := by
        simp only [handleTrace, hscan, hctx]
      rw [hout, traceStart_starts h (GoCtx.handle ahid) r.level ehid _ hgate1]
      refine ⟨?_, ?_, rfl⟩
      · simp [World.started, World.getHandle_mk, List.getD,
          List.getElem?_set_self, hlen1]
      · simp [World.getHandle_mk, World.setHandle, World.getHandle, List.getD,
          List.getElem?_set_ne (Ne.symm hne)]
  · intro hnone hlen hgate
    have hscan : getTraceSpan w (collectAttributes h r) = (none, collectAttributes h r, w) := by
      rw [getTraceSpan, getTraceSpanGo_none w (collectAttributes h r) [] hnone]
      simp
    cases hctx0 : (w.getHandle ahid).ctx with
    | none =>
      have hsp : (w.setHandle ahid
            { w.getHandle ahid with ctx := some GoCtx.background }).getHandle ahid =
          { w.getHandle ahid with ctx := some GoCtx.background } :=
        World.getHandle_setHandle_self w ahid _ hlen
      have hgate2 : h.traceLevel ≤ r.level ∨
          ((w.setHandle ahid
            { w.getHandle ahid with ctx := some GoCtx.background }).getHandle ahid).must =
            true := by
        rw [hsp]
        exact hgate
      have hlen2 : ahid < (w.setHandle ahid
          { w.getHandle ahid with ctx := some GoCtx.background }).handles.length := by
        simpa [World.setHandle] using hlen
      have hout : handleTrace h (GoCtx.handle ahid) r w =
          ((traceStart h GoCtx.background r.level (some ahid)
              (w.setHandle ahid
                { w.getHandle ahid with ctx := some GoCtx.background })).1,
           r,
           (traceStart h GoCtx.background r.level (some ahid)
              (w.setHandle ahid
                { w.getHandle ahid with ctx := some GoCtx.background })).2) := by
        simp [handleTrace, hscan, hctx0]
      rw [hout, traceStart_starts h GoCtx.background r.level ahid _ hgate2]
      refine ⟨?_, ?_, rfl⟩
      · simp [World.started, World.getHandle_mk, List.getD,
          List.getElem?_set_self, hlen2]
      · simp [World.setHandle, hctx0, List.getElem?_concat_length, List.getD]
    | some bound =>
      have hsp : (w.setHandle ahid (w.getHandle ahid)).getHandle ahid = w.getHandle ahid :=
        World.getHandle_setHandle_self w ahid _ hlen
      have hgate2 : h.traceLevel ≤ r.level ∨
          ((w.setHandle ahid (w.getHandle ahid)).getHandle ahid).must = true := by
        rw [hsp]
        exact hgate
      have hlen2 : ahid < (w.setHandle ahid (w.getHandle ahid)).handles.length := by
        simpa [World.setHandle] using hlen
      have hout : handleTrace h (GoCtx.handle ahid) r w =
          ((traceStart h bound r.level (some ahid)
              (w.setHandle ahid (w.getHandle ahid))).1,
           r,
           (traceStart h bound r.level (some ahid)
              (w.setHandle ahid (w.getHandle ahid))).2) := by
        simp [handleTrace, hscan, hctx0]
      rw [hout, traceStart_starts h bound r.level ahid _ hgate2]
      refine ⟨?_, ?_, rfl⟩
      · simp [World.started, World.getHandle_mk, List.getD,
          List.getElem?_set_self, hlen2]
      · simp [World.setHandle, hctx0, List.getElem?_concat_length, List.getD]

/-- Claim C3 witness input: the handler. -/
def c3Handler : Handler := NewHandler none []

/-- Claim C3 witness input: a record embedding handle 1 after one plain
attribute. -/
def c3Record : Record :=
  { time := default, level := 0, message := "m", pc := 0,
    attrs := [("x", SlogValue.str "y"),
              ("operation", SlogValue.anyVal (AnyValue.spanHandle 1))] }

/-- Claim C3 witness input: handle 0 is the ambient one, handle 1 the
embedded one. -/
def c3World : World := ⟨[NewSpanContext "ambient" none, NewSpanContext "embedded" none], []⟩

/-- Claim C3 witness: with both an ambient handle (0) and an embedded
handle (1) present, the embedded one is started and the ambient one is
left untouched; instantiated from the precedence theorem with every
hypothesis discharged. -/
theorem handleTrace_embedded_handle_precedence_witness :
    (handleTrace c3Handler (GoCtx.handle 0) c3Record c3World).2.2.started 1 = true ∧
    (handleTrace c3Handler (GoCtx.handle 0) c3Record c3World).2.2.getHandle 0 =
      c3World.getHandle 0 ∧
    (handleTrace c3Handler (GoCtx.handle 0) c3Record c3World).2.1 =
      { c3Record with attrs := [("x", SlogValue.str "y")] ++ [] } := by
  have hmain :=
    (handleTrace_embedded_handle_precedence c3Handler c3Record c3World 0 1
      [("x", SlogValue.str "y")] [] "operation").1
      rfl (by decide) (by decide) (by decide) (Or.inl (by decide))
  exact hmain

/-- Claim C9: for every duration-kind attribute, the converter emits an
integer equal to the duration's count of nanoseconds; a 5-second
duration yields the integer 5000000000, never 5. -/
theorem convertAttrs_duration_nanoseconds (k : String) (gs : List String) (d : Int) :
    convertAttrs (k, SlogValue.duration d) gs = [⟨goKey k gs, AttrValue.int64 d⟩] ∧
    convertAttrs ("elapsed", SlogValue.duration (durationOfSeconds 5)) [] =
      [⟨"elapsed", AttrValue.int64 5000000000⟩] ∧
    (5000000000 : Int) ≠ 5 := by
  refine ⟨by simp [convertAttrs], by simp [convertAttrs, durationOfSeconds, goKey], by decide⟩

/-- Claim C8: `End` on a never-started handle is a no-op, and `End` is
idempotent — a second call changes nothing (in particular the
underlying span's end is not recorded twice). -/
theorem spanContextEnd_idempotent (w : World) (hid : Nat) :
    ((w.getHandle hid).span = none → SpanContextEnd w hid = w) ∧
    SpanContextEnd (SpanContextEnd w hid) hid = SpanContextEnd w hid := by
  constructor
  · intro hnone
    unfold SpanContextEnd
    rw [hnone]
  · cases hs : (w.getHandle hid).span with
    | none => simp [SpanContextEnd, hs]
    | some sid =>
      have h1 : SpanContextEnd w hid = w.endSpan sid := by simp [SpanContextEnd, hs]
      have h2 : ((w.endSpan sid).getHandle hid).span = some sid := by
        rw [World.getHandle_endSpan, hs]
      rw [h1]
      simp only [SpanContextEnd, h2]
      unfold World.endSpan
      by_cases hlen : sid < w.spans.length
      · simp [List.getD, List.getElem?_set_self, hlen, Span.endOnce_endOnce, List.set_set]
      · have hset : ∀ x : Span, w.spans.set sid x = w.spans := by
          intro x
          apply List.set_eq_of_length_le
          omega
        simp [hset, List.getD, List.getElem?_eq_none (by omega : w.spans.length ≤ sid)]

/-- Claim C8 witness: a concrete started handle, ended twice. -/
theorem spanContextEnd_idempotent_witness :
    ((((⟨[{ span := some 0, spanName := "op" }],
        [{ tracerName := "", spanName := "op", startCtx := GoCtx.background,
           recording := true, endCount := 0 }]⟩ : World)).getHandle 0).span = none →
      SpanContextEnd ⟨[{ span := some 0, spanName := "op" }],
        [{ tracerName := "", spanName := "op", startCtx := GoCtx.background,
           recording := true, endCount := 0 }]⟩ 0 =
        ⟨[{ span := some 0, spanName := "op" }],
        [{ tracerName := "", spanName := "op", startCtx := GoCtx.background,
           recording := true, endCount := 0 }]⟩) ∧
    SpanContextEnd (SpanContextEnd ⟨[{ span := some 0, spanName := "op" }],
        [{ tracerName := "", spanName := "op", startCtx := GoCtx.background,
           recording := true, endCount := 0 }]⟩ 0) 0 =
      SpanContextEnd ⟨[{ span := some 0, spanName := "op" }],
        [{ tracerName := "", spanName := "op", startCtx := GoCtx.background,
           recording := true, endCount := 0 }]⟩ 0 :=
  spanContextEnd_idempotent _ 0

/-- Claim C10: `Done` on a handle whose embedded context is nil (as
`NewSpanContext` builds it, and as it stays while never started)
dereferences the nil context and panics instead of returning a
channel; with a context bound at construction or installed by a start,
`Done` succeeds. -/
theorem spanContextDone_nil_context_panics (w : World) (hid : Nat) (c : GoCtx)
    (sn tn : String) :
    ((w.getHandle hid).ctx = none →
      SpanContextDone w hid =
        Except.error "runtime error: invalid memory address or nil pointer dereference") ∧
    ((w.getHandle hid).ctx = some c → SpanContextDone w hid = Except.ok (SpanContextEnd w hid, c)) ∧
    (NewSpanContext sn (some tn)).ctx = none ∧
    (NewSpanContext sn none).ctx = none ∧
    (NewSpanContext sn none).span = none := by
  refine ⟨?_, ?_, rfl, rfl, rfl⟩
  · intro hnone
    simp only [SpanContextDone, World.getHandle_spanContextEnd, hnone]
  · intro hsome
    simp only [SpanContextDone, World.getHandle_spanContextEnd, hsome]

/-- Claim C10 witness: a freshly constructed, never-started
`NewSpanContext` handle panics in `Done`. -/
theorem spanContextDone_nil_context_panics_witness :
    SpanContextDone ⟨[NewSpanContext "op" none], []⟩ 0 =
      Except.error "runtime error: invalid memory address or nil pointer dereference" :=
  (spanContextDone_nil_context_panics ⟨[NewSpanContext "op" none], []⟩ 0
    GoCtx.background "op" "t").1 rfl

/-- Claim C2 (code bug): the heap after three successive `WithGroup`
calls from the root, whose slice has length 3 and capacity 4. -/
def GoSliceModel.c2Build : GoSliceModel.Heap × GoSliceModel.GoSlice :=
  let s1 := GoSliceModel.withGroupKeys { arrays := [] } GoSliceModel.nilSlice "g1"
  let s2 := GoSliceModel.withGroupKeys s1.1 s1.2 "g2"
  GoSliceModel.withGroupKeys s2.1 s2.2 "g3"

/-- Claim C2 (code bug): fork of the parent entering group `a`. -/
def GoSliceModel.c2ForkA : GoSliceModel.Heap × GoSliceModel.GoSlice :=
  GoSliceModel.withGroupKeys GoSliceModel.c2Build.1 GoSliceModel.c2Build.2 "a"

/-- Claim C2 (code bug): second, independent fork of the same parent
entering group `b`, run after the first fork. -/
def GoSliceModel.c2ForkB : GoSliceModel.Heap × GoSliceModel.GoSlice :=
  GoSliceModel.withGroupKeys GoSliceModel.c2ForkA.1 GoSliceModel.c2Build.2 "b"

/-- Claim C2: two independent `WithGroup` forks of a parent whose
group-key slice has spare capacity write into the same backing array:
after halting, fork A's path reads `g1.g2.g3.b` — it observes fork B's
appended segment — while the parent's own path is still `g1,g2,g3`.
This contradicts the documented invariant that parent and child paths
share no mutable backing storage. -/
theorem withGroup_forks_share_backing_storage :
    GoSliceModel.sliceView GoSliceModel.c2ForkA.1 (GoSliceModel.c2ForkA.2) =
      ["g1", "g2", "g3", "a"] ∧
    GoSliceModel.sliceView GoSliceModel.c2ForkB.1 (GoSliceModel.c2ForkB.2) =
      ["g1", "g2", "g3", "b"] ∧
    GoSliceModel.sliceView GoSliceModel.c2ForkB.1 (GoSliceModel.c2ForkA.2) =
      ["g1", "g2", "g3", "b"] ∧
    GoSliceModel.sliceView GoSliceModel.c2ForkB.1 (GoSliceModel.c2Build.2) =
      ["g1", "g2", "g3"] := by
  refine ⟨rfl, rfl, rfl, rfl⟩

/-- Projection of the five configuration fields the spec declares
immutable across forks. -/
def handlerConfig (h : Handler) : String × String × String × Bool × Int :=
  (h.traceIDKey, h.spanIDKey, h.spanEventKey, h.spanEvent, h.traceLevel)

/-- Claim C7 counterexample input: a parent handler wrapping a sink. -/
def c7Sink : Sink := { enabled := fun _ => true, groups := [], handled := [] }

/-- Claim C7 counterexample input: the parent handler. -/
def c7Parent : Handler := NewHandler (some c7Sink) []

/-- Claim C7 counterexample: `WithGroup` does not share the wrapped
sink reference — the child wraps `Next.WithGroup(name)`, a sink fork
that has entered the group, which differs from the parent's sink. -/
theorem withGroup_does_not_share_sink :
    (c7Parent.WithGroup "g").Next ≠ c7Parent.Next ∧
    (c7Parent.WithGroup "g").Next = some (c7Sink.withGroupSink "g") := by
  constructor
  · intro heq
    have hg := congrArg (fun o => Option.map Sink.groups o) heq
    simp [c7Parent, c7Sink, NewHandler, Handler.WithGroup, Sink.withGroupSink] at hg
  · rfl

/-- Claim C7 (amended): both forks copy all five configuration fields;
`WithAttrs` shares the sink, carries the group path over and replaces
only the accumulated attributes; `WithGroup` keeps the attributes,
appends the one group segment, and wraps the parent's sink after
asking it to enter the same group. -/
theorem fork_preserves_configuration (h : Handler) (attrs : List SlogAttr) (name : String) :
    handlerConfig (h.WithAttrs attrs) = handlerConfig h ∧
    (h.WithAttrs attrs).groupKeys = h.groupKeys ∧
    (h.WithAttrs attrs).Next = h.Next ∧
    (h.WithAttrs attrs).attrs = attrs ∧
    handlerConfig (h.WithGroup name) = handlerConfig h ∧
    (h.WithGroup name).attrs = h.attrs ∧
    (h.WithGroup name).groupKeys = h.groupKeys ++ [name] ∧
    (h.WithGroup name).Next = h.Next.map (fun s => s.withGroupSink name) :=
  ⟨rfl, rfl, rfl, rfl, rfl, rfl, rfl, rfl⟩

/-- Claim C6 counterexample input: a sink enabled only at WARN and
above. -/
def c6Sink : Sink := { enabled := fun level => decide (4 ≤ level), groups := [], handled := [] }

/-- Claim C6 counterexample input: the decorator over that sink. -/
def c6Handler : Handler := NewHandler (some c6Sink) []

/-- Claim C6 counterexample: at INFO (level 0) the wrapped sink's
`Enabled` is false but the decorator's `Enabled` returns true, so the
decorator does not return what the sink returns. -/
theorem enabled_does_not_delegate :
    c6Handler.Next = some c6Sink ∧
    Handler.Enabled c6Handler GoCtx.background 0 = true ∧
    c6Sink.enabled 0 = false ∧
    Handler.Enabled c6Handler GoCtx.background 0 ≠ c6Sink.enabled 0 := by
  refine ⟨rfl, rfl, rfl, by decide⟩

/-- Claim C6 (amended): the current revision's `Enabled` returns true
unconditionally for every context and level — no filtering of its own —
and the level gate against the wrapped sink is applied at forwarding
time instead: `nextHandle` hands the record to the sink exactly when
the sink's own `Enabled` accepts the level.  The older revision's
`Enabled` delegates to the wrapped sink directly. -/
theorem enabled_true_and_forwarding_gated (h : Handler) (ctx : GoCtx) (level : Int)
    (r : Record) (s : Sink) (h2 : HandlerV2) :
    Handler.Enabled h ctx level = true ∧
    (h.Next = some s →
      (nextHandle h ctx r = some (s.handleRecord r) ↔ s.enabled r.level = true)) ∧
    HandlerV2.Enabled h2 ctx level = h2.Next.enabled level := by
  refine ⟨rfl, ?_, rfl⟩
  intro hn
  unfold nextHandle
  rw [hn]
  cases he : s.enabled r.level with
  | true => simp [he]
  | false =>
    simp only [he, Bool.false_eq_true, if_false, iff_false]
    intro heq
    have hh := congrArg (fun o => Option.map Sink.handled o) heq
    simp [Sink.handleRecord] at hh

/-- Claim C6 witness: the amended statement applied to the concrete
WARN-gated sink and an INFO record. -/
theorem enabled_true_and_forwarding_gated_witness :
    Handler.Enabled c6Handler GoCtx.background 0 = true ∧
    (c6Handler.Next = some c6Sink →
      (nextHandle c6Handler GoCtx.background
          { time := default, level := 0, message := "m", pc := 0, attrs := [] } =
        some (c6Sink.handleRecord
          { time := default, level := 0, message := "m", pc := 0, attrs := [] }) ↔
        c6Sink.enabled 0 = true)) ∧
    HandlerV2.Enabled ⟨c6Sink⟩ GoCtx.background 0 = c6Sink.enabled 0 :=
  enabled_true_and_forwarding_gated c6Handler GoCtx.background 0
    { time := default, level := 0, message := "m", pc := 0, attrs := [] } c6Sink ⟨c6Sink⟩

end Otelslog
